import Mathlib

/-!
Shallow embedding of the Magnet-Brains task-management backend
(`src/backend/controllers/taskController.js`, `userController.js`,
`src/backend/models/Task.js`, the WebSocket server in
`src/backend/routes/users.js` part, and the client hook
`src/frontend/src/hooks/useWebSocket.js`), together with theorems
checking the specification's claims against it.

Mongoose documents are modelled as plain Lean structures; object ids are
`Nat`; timestamps are `Int`.  A controller handler that can answer an
error response before calling `save()` is modelled as an `Except`: on
`Except.error` the persisted document is the unchanged input.
-/

namespace MB

/-- Task status enum from `Task.js` (`'To Do' | 'In Progress' | 'Completed'`). -/
inductive Status
  | toDo
  | inProgress
  | completed
deriving DecidableEq, Repr

/-- Task priority enum from `Task.js` (`'High' | 'Medium' | 'Low'`). -/
inductive Priority
  | high
  | medium
  | low
deriving DecidableEq, Repr

/-- Audit action enum from the `auditSchema` in `Task.js`. -/
inductive AuditAction
  | created
  | updated
  | status_changed
  | priority_changed
  | assigned
  | reassigned
  | comment_added
  | attachment_added
  | attachment_removed
deriving DecidableEq, Repr

/-- The `Mixed` old/new values stored in audit entries: the code only ever
stores priority and status values there. -/
inductive MixedValue
  | prio (p : Priority)
  | stat (s : Status)
deriving DecidableEq, Repr

/-- One entry of `auditSchema` (`Task.js`), as pushed by `addAuditEntry`. -/
structure AuditEntry where
  user : Nat
  action : AuditAction
  field : Option String
  oldValue : Option MixedValue
  newValue : Option MixedValue
  description : Option String
deriving DecidableEq, Repr

/-- One entry of `commentSchema` (`Task.js`). -/
structure Comment where
  user : Nat
  text : String
deriving DecidableEq, Repr

/-- One entry of `attachmentSchema` (`Task.js`). -/
structure Attachment where
  id : Nat
  filename : String
  originalName : String
  mimetype : String
  size : Nat
  uploadedBy : Nat
deriving DecidableEq, Repr

/-- The `Task` document (`taskSchema` in `Task.js`). -/
structure Task where
  title : String
  description : String
  assignedTo : Nat
  createdBy : Nat
  status : Status
  priority : Priority
  dueDate : Int
  tags : List String
  attachments : List Attachment
  comments : List Comment
  auditHistory : List AuditEntry
  completedAt : Option Int
  isDeleted : Bool
deriving DecidableEq, Repr

/-- Partial update body accepted by `updateTask`
(`const \x7b title, description, dueDate, priority, tags, status \x7d = req.body`).
`none` models an absent (or, for `title`/`dueDate`, falsy) field. -/
structure UpdatePatch where
  title : Option String
  description : Option String
  dueDate : Option Int
  priority : Option Priority
  tags : Option (List String)
  status : Option Status
deriving DecidableEq, Repr

/-- The one error the update path can raise: `'Cannot revert status from
Completed'` (controller guard and the `pre('save')` hook agree on it). -/
inductive UpdateErr
  | cannotRevert
deriving DecidableEq, Repr

/-- Entry pushed by `task.addAuditEntry(req.user.id, 'priority_changed', ...)`. -/
def priorityChangedEntry (actor : Nat) (oldP newP : Priority) : AuditEntry :=
  { user := actor, action := AuditAction.priority_changed, field := some "priority",
    oldValue := some (MixedValue.prio oldP), newValue := some (MixedValue.prio newP),
    description := none }

/-- Entry pushed by `task.addAuditEntry(req.user.id, 'status_changed', ...)`. -/
def statusChangedEntry (actor : Nat) (oldS newS : Status) : AuditEntry :=
  { user := actor, action := AuditAction.status_changed, field := some "status",
    oldValue := some (MixedValue.stat oldS), newValue := some (MixedValue.stat newS),
    description := none }

/-- Generic entry pushed at the end of `updateTask` when `changes.length > 0`:
description is `Updated: ` followed by the changed field names joined by `, `. -/
def updatedEntry (actor : Nat) (changes : List String) : AuditEntry :=
  { user := actor, action := AuditAction.updated, field := none,
    oldValue := none, newValue := none,
    description := some ("Updated: " ++ String.intercalate ", " changes) }

/-- Entry pushed by `createTask` after `Task.create`. -/
def createdEntry (actor : Nat) (assigneeName : String) : AuditEntry :=
  { user := actor, action := AuditAction.created, field := none,
    oldValue := none, newValue := none,
    description := some ("Task created and assigned to " ++ assigneeName) }

/-- Entry pushed by `addComment`. -/
def commentAddedEntry (actor : Nat) : AuditEntry :=
  { user := actor, action := AuditAction.comment_added, field := none,
    oldValue := none, newValue := none, description := some "Added a comment" }

/-- Entry pushed by `addAttachment`. -/
def attachmentAddedEntry (actor : Nat) (originalName : String) : AuditEntry :=
  { user := actor, action := AuditAction.attachment_added, field := none,
    oldValue := none, newValue := none,
    description := some ("Added attachment: " ++ originalName) }

/-- Entry pushed by `removeAttachment`. -/
def attachmentRemovedEntry (actor : Nat) (originalName : String) : AuditEntry :=
  { user := actor, action := AuditAction.attachment_removed, field := none,
    oldValue := none, newValue := none,
    description := some ("Removed attachment: " ++ originalName) }

/-- Entry pushed in the `deleteUser` reassignment loop. -/
def reassignedEntry (actor : Nat) (fromName toName : String) : AuditEntry :=
  { user := actor, action := AuditAction.reassigned, field := none,
    oldValue := none, newValue := none,
    description := some ("Reassigned from " ++ fromName ++ " to " ++ toName
      ++ " (user deletion)") }

/-- The `taskSchema.pre('save')` hook in `Task.js`: `original` is the
`_original` snapshot stored by the `post('init')` hook (the document as
loaded), `t` the document being saved.  `isModified('status')` is modelled
as value inequality against the snapshot, which is exact here because every
caller writes `status` at most once and only when it differs. -/
def preSave (original : Task) (t : Task) (now : Int) : Except UpdateErr Task :=
  if t.status ≠ original.status then
    if original.status = Status.completed ∧ t.status ≠ Status.completed then
      Except.error UpdateErr.cannotRevert
    else if t.status = Status.completed ∧ t.completedAt = none then
      Except.ok { t with completedAt := some now }
    else Except.ok t
  else Except.ok t

/-- Stage `if (title && title !== task.title)` of `updateTask`: a non-empty
(truthy) new title that differs is staged as a change and applied. -/
def applyTitle (task : Task) (p : UpdatePatch) : Task × List String :=
  match p.title with
  | some s =>
    if s ≠ "" ∧ s ≠ task.title then ({ task with title := s }, ["title"])
    else (task, [])
  | none => (task, [])

/-- Stage `if (description !== undefined && description !== task.description)`. -/
def applyDescription (task : Task) (p : UpdatePatch) : Task × List String :=
  match p.description with
  | some d =>
    if d ≠ task.description then ({ task with description := d }, ["description"])
    else (task, [])
  | none => (task, [])

/-- Stage `if (dueDate && new Date(dueDate).getTime() !== task.dueDate.getTime())`; the patch field is already the parsed timestamp. -/
def applyDueDate (task : Task) (p : UpdatePatch) : Task × List String :=
  match p.dueDate with
  | some d =>
    if d ≠ task.dueDate then ({ task with dueDate := d }, ["dueDate"])
    else (task, [])
  | none => (task, [])

/-- Stage `if (priority && priority !== task.priority)`: stages the change,
pushes a dedicated `priority_changed` audit entry, applies the value. -/
def applyPriority (actor : Nat) (task : Task) (p : UpdatePatch) : Task × List String :=
  match p.priority with
  | some pr =>
    if pr ≠ task.priority then
      ({ task with
           priority := pr,
           auditHistory := task.auditHistory ++ [priorityChangedEntry actor task.priority pr] },
       ["priority"])
    else (task, [])
  | none => (task, [])

/-- Stage `if (status && status !== task.status)`: rejects a reversion from
Completed with an early `return res.status(400)` (before `save()`), else
stages the change, pushes `status_changed`, applies the value. -/
def applyStatus (actor : Nat) (task : Task) (p : UpdatePatch) :
    Except UpdateErr (Task × List String) :=
  match p.status with
  | some st =>
    if st ≠ task.status then
      if task.status = Status.completed ∧ st ≠ Status.completed then
        Except.error UpdateErr.cannotRevert
      else
        Except.ok ({ task with
            status := st,
            auditHistory := task.auditHistory ++ [statusChangedEntry actor task.status st] },
          ["status"])
    else Except.ok (task, [])
  | none => Except.ok (task, [])

/-- Stage `if (tags) \x7b task.tags = tags \x7d`: wholesale replacement, no change
staged (a JavaScript array is truthy even when empty, so presence suffices). -/
def applyTags (task : Task) (p : UpdatePatch) : Task :=
  match p.tags with
  | some ts => { task with tags := ts }
  | none => task

/-- Handler `exports.updateTask` from `taskController.js` (lines 140-239), after the
task has been found: field stages in source order (title, description,
dueDate, priority, status, tags), then the generic `updated` entry when any
change was staged, then `task.save()` which runs the `pre('save')` hook.
An `Except.error` models the handler answering 400 without saving. -/
def updateTask (actor : Nat) (task0 : Task) (p : UpdatePatch) (now : Int) :
    Except UpdateErr Task :=
  let s1 := applyTitle task0 p
  let s2 := applyDescription s1.1 p
  let s3 := applyDueDate s2.1 p
  let s4 := applyPriority actor s3.1 p
  match applyStatus actor s4.1 p with
  | Except.error e => Except.error e
  | Except.ok s5 =>
    let t6 := applyTags s5.1 p
    let changes := s1.2 ++ s2.2 ++ s3.2 ++ s4.2 ++ s5.2
    let t7 := if changes = [] then t6
      else { t6 with auditHistory := t6.auditHistory ++ [updatedEntry actor changes] }
    preSave task0 t7 now

/-- Field names of the `changes` array a successful `updateTask` run builds,
in the source's check order. -/
def changedFields (task : Task) (p : UpdatePatch) : List String :=
  (match p.title with
   | some s => if s ≠ "" ∧ s ≠ task.title then ["title"] else []
   | none => []) ++
  (match p.description with
   | some d => if d ≠ task.description then ["description"] else []
   | none => []) ++
  (match p.dueDate with
   | some d => if d ≠ task.dueDate then ["dueDate"] else []
   | none => []) ++
  (match p.priority with
   | some pr => if pr ≠ task.priority then ["priority"] else []
   | none => []) ++
  (match p.status with
   | some st => if st ≠ task.status then ["status"] else []
   | none => [])

/-- The document as persisted after an update request: an error response is
returned before `task.save()`, so the stored document is unchanged. -/
def persistedAfterUpdate (task0 : Task) (r : Except UpdateErr Task) : Task :=
  match r with
  | Except.error _ => task0
  | Except.ok t => t

/-- Handler `exports.createTask` after the assignee lookup succeeded
(`assigneeName` is the looked-up user's name): `Task.create` with the given
fields and defaults, then the `created` audit entry, then `save()`. -/
def createTask (creator : Nat) (title description : String) (assignedTo : Nat)
    (dueDate : Int) (priority : Option Priority) (tags : Option (List String))
    (assigneeName : String) : Task :=
  { title := title, description := description, assignedTo := assignedTo,
    createdBy := creator, status := Status.toDo,
    priority := priority.getD Priority.medium, dueDate := dueDate,
    tags := tags.getD [], attachments := [], comments := [],
    auditHistory := [createdEntry creator assigneeName],
    completedAt := none, isDeleted := false }

/-- Handler `exports.deleteTask`: soft delete, sets `isDeleted = true` and saves.
The `pre('save')` hook does not fire its status logic (status unmodified)
and no audit entry is recorded. -/
def deleteTask (task : Task) : Task :=
  { task with isDeleted := true }

/-- Handler `exports.addComment` after the task was found: push the comment, push
the `comment_added` audit entry, save. -/
def addComment (actor : Nat) (task : Task) (text : String) : Task :=
  { task with
      comments := task.comments ++ [{ user := actor, text := text }],
      auditHistory := task.auditHistory ++ [commentAddedEntry actor] }

/-- Handler `exports.addAttachment` after the task was found and a file uploaded:
push the attachment, push the `attachment_added` audit entry, save. -/
def addAttachment (actor : Nat) (task : Task) (a : Attachment) : Task :=
  { task with
      attachments := task.attachments ++ [a],
      auditHistory := task.auditHistory ++ [attachmentAddedEntry actor a.originalName] }

/-- Error answered by `removeAttachment` when
`task.attachments.id(req.params.attachmentId)` finds nothing. -/
inductive RemoveErr
  | attachmentNotFound
deriving DecidableEq, Repr

/-- Handler `exports.removeAttachment` after the task was found: locate the
attachment by id (404 if absent), push the `attachment_removed` audit entry,
`pull` the attachment, save.  The best-effort blob unlink has no effect on
the document. -/
def removeAttachment (actor : Nat) (task : Task) (attachmentId : Nat) :
    Except RemoveErr Task :=
  match task.attachments.find? (fun a => a.id = attachmentId) with
  | none => Except.error RemoveErr.attachmentNotFound
  | some a =>
    Except.ok { task with
      auditHistory := task.auditHistory ++ [attachmentRemovedEntry actor a.originalName],
      attachments := task.attachments.filter (fun b => b.id ≠ attachmentId) }

/-- A `User` document (only the fields `deleteUser` reads). -/
structure User where
  id : Nat
  name : String
deriving DecidableEq, Repr

/-- The slice of the entity store `deleteUser` touches: all users and all
tasks (each task paired with its document id). -/
structure Store where
  users : List User
  tasks : List (Nat × Task)
deriving DecidableEq, Repr

/-- Outcome of `exports.deleteUser` (`userController.js` lines 47-129). -/
inductive DeleteUserResult
  | selfDelete
  | targetNotFound
  | tasksNeedReassign (taskCount : Nat)
  | reassignTargetNotFound
  | deleted (tasksReassigned : Nat)
deriving DecidableEq, Repr

def pendingTasks (targetId : Nat) (store : Store) : List (Nat × Task) :=
  store.tasks.filter (fun q => q.2.assignedTo = targetId ∧ q.2.isDeleted = false)

/-- Handler `exports.deleteUser`: reject self-deletion, look up the target, count the
target's non-deleted tasks; if any exist, require `reassignTo` (reporting the
count), resolve it, reassign each such task (with one `reassigned` audit
entry, saved per task), then `findByIdAndDelete` the target. -/
def deleteUser (reqUserId targetId : Nat) (reassignTo : Option Nat)
    (store : Store) : DeleteUserResult × Store :=
  if targetId = reqUserId then (DeleteUserResult.selfDelete, store)
  else
    match store.users.find? (fun u => u.id = targetId) with
    | none => (DeleteUserResult.targetNotFound, store)
    | some user =>
      if (pendingTasks targetId store).length > 0 then
        match reassignTo with
        | none => (DeleteUserResult.tasksNeedReassign (pendingTasks targetId store).length, store)
        | some r =>
          match store.users.find? (fun u => u.id = r) with
          | none => (DeleteUserResult.reassignTargetNotFound, store)
          | some reassignUser =>
            (DeleteUserResult.deleted (pendingTasks targetId store).length,
             { users := store.users.filter (fun u => u.id ≠ targetId),
               tasks := store.tasks.map (fun q =>
                 if q.2.assignedTo = targetId ∧ q.2.isDeleted = false then
                   (q.1, { q.2 with
                     assignedTo := r,
                     auditHistory := q.2.auditHistory ++
                       [reassignedEntry reqUserId user.name reassignUser.name] })
                 else q) })
      else
        (DeleteUserResult.deleted (pendingTasks targetId store).length,
         { store with users := store.users.filter (fun u => u.id ≠ targetId) })

/-- Transport `ws.readyState` values; `opened` models
`WebSocket.OPEN`. -/
inductive ConnState
  | connecting
  | opened
  | closing
  | closedState
deriving DecidableEq, Repr

/-- One server-side WebSocket connection: the fields the registry code reads
(`ws.userId`, `ws.readyState`, `ws.isAlive`), plus an id to tell sockets
apart. -/
structure Conn where
  id : Nat
  userId : Nat
  readyState : ConnState
  isAlive : Bool
deriving DecidableEq, Repr

/-- Registry `this.clients`: Map of userId to Set of WebSocket connections, modelled
as an association list of (userId, connection list). -/
structure Registry where
  clients : List (Nat × List Conn)
deriving DecidableEq, Repr

/-- All connections tracked by the registry (also what `this.wss.clients`
contains, since every accepted socket is registered). -/
def Registry.allConns (reg : Registry) : List Conn :=
  reg.clients.flatMap (fun p => p.2)

/-- Ids of all tracked connections. -/
def Registry.connIds (reg : Registry) : List Nat :=
  reg.allConns.map (fun c => c.id)

/-- Typed events sent over the push channel (server to client). -/
inductive WSEvent
  | taskCreated (taskId : Nat)
  | taskUpdated (taskId : Nat)
  | taskDeleted (taskId : Nat)
  | connectedAck (userId : Nat)
deriving DecidableEq, Repr

/-- Serialization `JSON.stringify(message)`: a concrete injective serialization. -/
def serializeEvent : WSEvent → String
  | WSEvent.taskCreated t => "TASK_CREATED " ++ toString t
  | WSEvent.taskUpdated t => "TASK_UPDATED " ++ toString t
  | WSEvent.taskDeleted t => "TASK_DELETED " ++ toString t
  | WSEvent.connectedAck u => "CONNECTED " ++ toString u

/-- Fan-out `broadcastToUser(userId, message)`: look up the user's connection set;
if present, stringify the message once and `send` it on every connection
whose `readyState` is `OPEN`.  The result is the list of performed sends
(connection id, payload); connections not open are skipped. -/
def broadcastToUser (reg : Registry) (userId : Nat) (event : WSEvent) :
    List (Nat × String) :=
  match reg.clients.find? (fun p => p.1 = userId) with
  | none => []
  | some p =>
    let messageStr := serializeEvent event
    (p.2.filter (fun ws => ws.readyState = ConnState.opened)).map
      (fun ws => (ws.id, messageStr))

/-- Registration step of `handleConnection`: create the user's set when
absent, then add the socket. -/
def registerConn (reg : Registry) (ws : Conn) : Registry :=
  match reg.clients.find? (fun p => p.1 = ws.userId) with
  | none => { clients := reg.clients ++ [(ws.userId, [ws])] }
  | some _ =>
    { clients := reg.clients.map (fun p =>
        if p.1 = ws.userId then (p.1, p.2 ++ [ws]) else p) }

/-- Cleanup `handleDisconnection(ws)`: delete the socket from its user's set and
drop the user's entry when the set becomes empty. -/
def handleDisconnection (reg : Registry) (ws : Conn) : Registry :=
  match reg.clients.find? (fun p => p.1 = ws.userId) with
  | none => reg
  | some p =>
    let conns := p.2.erase ws
    if conns.length = 0 then
      { clients := reg.clients.filter (fun q => q.1 ≠ ws.userId) }
    else
      { clients := reg.clients.map (fun q =>
          if q.1 = ws.userId then (q.1, conns) else q) }

/-- The interval of the heartbeat sweep in `startHeartbeat` (milliseconds). -/
def heartbeatIntervalMs : Nat := 30000

/-- One run of the `startHeartbeat` sweep body over the tracked sockets:
every socket whose `isAlive` flag is false is `terminate()`d — its close
event runs `handleDisconnection`, which deletes it from its user's entry
and drops the entry once empty, so per entry exactly the live sockets
remain; every live socket has its flag cleared to false and is sent a
`ping()`.  Returns the registry afterwards, the terminated socket ids, and
the pinged socket ids. -/
def heartbeatSweep (reg : Registry) : Registry × List Nat × List Nat :=
  ({ clients := (reg.clients.map (fun p =>
      (p.1, (p.2.filter (fun c => c.isAlive = true)).map
        (fun c => { c with isAlive := false })))).filter (fun p => p.2 ≠ []) },
   (reg.allConns.filter (fun c => c.isAlive = false)).map (fun c => c.id),
   (reg.allConns.filter (fun c => c.isAlive = true)).map (fun c => c.id))

/-- The `pong` listener: `ws.isAlive = true`. -/
def handlePong (c : Conn) : Conn :=
  { c with isAlive := true }

/-- Registry wellformedness maintained by the server: keys are distinct,
every connection sits under its own user id, connection ids are globally
distinct, and no user maps to an empty set. -/
def Registry.Wellformed (reg : Registry) : Prop :=
  (reg.clients.map (fun p => p.1)).Nodup ∧
  (∀ p ∈ reg.clients, ∀ c ∈ p.2, c.userId = p.1) ∧
  reg.connIds.Nodup ∧
  (∀ p ∈ reg.clients, p.2 ≠ [])

/-- State of the client hook `useWebSocket` that the close handler reads:
`mountedRef.current`, `reconnectAttemptsRef.current`, and whether a token is
available. -/
structure WSClientState where
  mounted : Bool
  attempts : Nat
  hasToken : Bool
deriving DecidableEq, Repr

/-- Close code of a clean, intentional shutdown. -/
def cleanCloseCode : Nat := 1000

/-- Base reconnection delay (`3000` ms). -/
def reconnectBaseDelayMs : Nat := 3000

/-- Maximum number of reconnection attempts (`< 3` guard). -/
def maxReconnectAttempts : Nat := 3

/-- Handler `ws.onclose` from `useWebSocket.js` (lines 59-89): if the hook is still
mounted, the close was not clean (code 1000), fewer than 3 attempts were
made and a token is present, increment the attempt counter and schedule a
reconnection after `3000 * attempts` ms; otherwise schedule nothing. -/
def onClose (s : WSClientState) (code : Nat) : WSClientState × Option Nat :=
  if s.mounted = false then (s, none)
  else if code ≠ cleanCloseCode ∧ s.attempts < maxReconnectAttempts ∧ s.hasToken then
    ({ s with attempts := s.attempts + 1 },
     some (reconnectBaseDelayMs * (s.attempts + 1)))
  else (s, none)

/-- Handler `ws.onopen`: reset the attempt counter (when still mounted). -/
def onOpen (s : WSClientState) : WSClientState :=
  if s.mounted then { s with attempts := 0 } else s

/-- The effect cleanup (lines 92-107): clears the pending timer, detaches
`onclose` and closes with code 1000; afterwards `mountedRef.current` is
false, so no further reconnection is ever scheduled. -/
def cleanup (s : WSClientState) : WSClientState :=
  { s with mounted := false }

/-- Run a sequence of close events through `onClose`, collecting every
scheduled reconnection delay in order. -/
def runCloses (s : WSClientState) : List Nat → WSClientState × List Nat
  | [] => (s, [])
  | c :: cs =>
    let step := onClose s c
    let rest := runCloses step.1 cs
    (rest.1, step.2.toList ++ rest.2)

/-- Change list contributed by the title stage. -/
def titleChange (task : Task) (p : UpdatePatch) : List String :=
  match p.title with
  | some s => if s ≠ "" ∧ s ≠ task.title then ["title"] else []
  | none => []

/-- Change list contributed by the description stage. -/
def descriptionChange (task : Task) (p : UpdatePatch) : List String :=
  match p.description with
  | some d => if d ≠ task.description then ["description"] else []
  | none => []

/-- Change list contributed by the dueDate stage. -/
def dueDateChange (task : Task) (p : UpdatePatch) : List String :=
  match p.dueDate with
  | some d => if d ≠ task.dueDate then ["dueDate"] else []
  | none => []

/-- Change list contributed by the priority stage. -/
def priorityChange (task : Task) (p : UpdatePatch) : List String :=
  match p.priority with
  | some pr => if pr ≠ task.priority then ["priority"] else []
  | none => []

/-- Change list contributed by the status stage (successful case). -/
def statusChange (task : Task) (p : UpdatePatch) : List String :=
  match p.status with
  | some st => if st ≠ task.status then ["status"] else []
  | none => []

/-- Audit entries pushed by the priority stage. -/
def prioAudit (actor : Nat) (task : Task) (p : UpdatePatch) : List AuditEntry :=
  match p.priority with
  | some pr => if pr ≠ task.priority then [priorityChangedEntry actor task.priority pr] else []
  | none => []

/-- Audit entries pushed by the status stage (successful case). -/
def statusAudit (actor : Nat) (task : Task) (p : UpdatePatch) : List AuditEntry :=
  match p.status with
  | some st => if st ≠ task.status then [statusChangedEntry actor task.status st] else []
  | none => []

/-- All audit entries a successful `updateTask` run appends, in push order:
the dedicated `priority_changed` entry, the dedicated `status_changed`
entry, then the generic `updated` entry when any change was staged. -/
def updateAudit (actor : Nat) (task : Task) (p : UpdatePatch) : List AuditEntry :=
  prioAudit actor task p ++ statusAudit actor task p ++
    (if changedFields task p = [] then [] else [updatedEntry actor (changedFields task p)])

/-- Completed task used to witness the claims about status reversion. -/
def wTaskDone : Task :=
  { title := "Ship release", description := "cut the build", assignedTo := 2,
    createdBy := 1, status := Status.completed, priority := Priority.medium,
    dueDate := 100, tags := ["release"], attachments := [], comments := [],
    auditHistory := [createdEntry 1 "Bo"], completedAt := some 50, isDeleted := false }

/-- Patch that tries to revert the status while also touching every other
field. -/
def wPatchRevert : UpdatePatch :=
  { title := some "Ship hotfix", description := some "new text", dueDate := some 200,
    priority := some Priority.high, tags := some ["hotfix"],
    status := some Status.inProgress }

/-- Medium-priority To-Do task used to witness the update claims. -/
def wTaskMed : Task :=
  { title := "Draft plan", description := "first cut", assignedTo := 2, createdBy := 1,
    status := Status.toDo, priority := Priority.medium, dueDate := 100, tags := [],
    attachments := [], comments := [], auditHistory := [], completedAt := none,
    isDeleted := false }

/-- Patch that only raises the priority. -/
def wPatchPrio : UpdatePatch :=
  { title := none, description := none, dueDate := none,
    priority := some Priority.high, tags := none, status := none }

/-- Patch that only rewrites the tag list. -/
def wPatchTags : UpdatePatch :=
  { title := none, description := none, dueDate := none,
    priority := none, tags := some ["backend", "urgent"], status := none }

/-- Patch that only completes the task. -/
def wPatchDone : UpdatePatch :=
  { title := none, description := none, dueDate := none,
    priority := none, tags := none, status := some Status.completed }

/-- Result of completing `wTaskMed` at time 77. -/
def wTaskMedDone : Task :=
  { wTaskMed with
      status := Status.completed,
      auditHistory := [statusChangedEntry 1 Status.toDo Status.completed,
        updatedEntry 1 ["status"]],
      completedAt := some 77 }

/-- Target user for the delete-user witnesses. -/
def wUserTia : User := { id := 2, name := "Tia" }

/-- Reassignment target for the delete-user witnesses. -/
def wUserRaj : User := { id := 3, name := "Raj" }

/-- Store with one requester and a target who owns two non-deleted tasks. -/
def wStore : Store :=
  { users := [{ id := 1, name := "Ana" }, wUserTia, wUserRaj],
    tasks := [(10, { wTaskMed with assignedTo := 2 }),
              (11, { wTaskDone with assignedTo := 2 })] }

/-- Open connection of user 7. -/
def wConnA : Conn :=
  { id := 100, userId := 7, readyState := ConnState.opened, isAlive := true }

/-- Second open connection of user 7 (a second device). -/
def wConnB : Conn :=
  { id := 101, userId := 7, readyState := ConnState.opened, isAlive := true }

/-- Connection of user 7 that is already closed and unresponsive. -/
def wConnC : Conn :=
  { id := 102, userId := 7, readyState := ConnState.closedState, isAlive := false }

/-- Registry with a single user owning three connections. -/
def wReg : Registry := { clients := [(7, [wConnA, wConnB, wConnC])] }

/-- Freshly-mounted client hook state with a token. -/
def wClient : WSClientState := { mounted := true, attempts := 0, hasToken := true }

theorem changedFields_eq (task : Task) (p : UpdatePatch) :
    changedFields task p = titleChange task p ++ descriptionChange task p ++
      dueDateChange task p ++ priorityChange task p ++ statusChange task p := by
  simp [changedFields, titleChange, descriptionChange, dueDateChange,
    priorityChange, statusChange]

theorem applyTitle_snd (task : Task) (p : UpdatePatch) :
    (applyTitle task p).2 = titleChange task p := by
  unfold applyTitle titleChange
  rcases hp : p.title with _ | s <;> simp
  split <;> rfl

theorem applyTitle_fields (task : Task) (p : UpdatePatch) :
    (applyTitle task p).1.description = task.description ∧
    (applyTitle task p).1.dueDate = task.dueDate ∧
    (applyTitle task p).1.priority = task.priority ∧
    (applyTitle task p).1.status = task.status ∧
    (applyTitle task p).1.tags = task.tags ∧
    (applyTitle task p).1.auditHistory = task.auditHistory ∧
    (applyTitle task p).1.completedAt = task.completedAt := by
  unfold applyTitle
  rcases hp : p.title with _ | s <;> simp
  split <;> simp

theorem applyDescription_snd (task : Task) (p : UpdatePatch) :
    (applyDescription task p).2 = descriptionChange task p := by
  unfold applyDescription descriptionChange
  rcases hp : p.description with _ | d <;> simp
  split <;> rfl

theorem applyDescription_fields (task : Task) (p : UpdatePatch) :
    (applyDescription task p).1.dueDate = task.dueDate ∧
    (applyDescription task p).1.priority = task.priority ∧
    (applyDescription task p).1.status = task.status ∧
    (applyDescription task p).1.tags = task.tags ∧
    (applyDescription task p).1.auditHistory = task.auditHistory ∧
    (applyDescription task p).1.completedAt = task.completedAt := by
  unfold applyDescription
  rcases hp : p.description with _ | d <;> simp
  split <;> simp

theorem applyDescription_test (task task' : Task) (p : UpdatePatch)
    (h : task.description = task'.description) :
    descriptionChange task p = descriptionChange task' p := by
  unfold descriptionChange; rw [h]

theorem applyDueDate_snd (task : Task) (p : UpdatePatch) :
    (applyDueDate task p).2 = dueDateChange task p := by
  unfold applyDueDate dueDateChange
  rcases hp : p.dueDate with _ | d <;> simp
  split <;> rfl

theorem applyDueDate_fields (task : Task) (p : UpdatePatch) :
    (applyDueDate task p).1.priority = task.priority ∧
    (applyDueDate task p).1.status = task.status ∧
    (applyDueDate task p).1.tags = task.tags ∧
    (applyDueDate task p).1.auditHistory = task.auditHistory ∧
    (applyDueDate task p).1.completedAt = task.completedAt := by
  unfold applyDueDate
  rcases hp : p.dueDate with _ | d <;> simp
  split <;> simp

theorem dueDateChange_congr (task task' : Task) (p : UpdatePatch)
    (h : task.dueDate = task'.dueDate) :
    dueDateChange task p = dueDateChange task' p := by
  unfold dueDateChange; rw [h]

theorem applyPriority_snd (actor : Nat) (task : Task) (p : UpdatePatch) :
    (applyPriority actor task p).2 = priorityChange task p := by
  unfold applyPriority priorityChange
  rcases hp : p.priority with _ | pr <;> simp
  split <;> rfl

theorem applyPriority_fields (actor : Nat) (task : Task) (p : UpdatePatch) :
    (applyPriority actor task p).1.status = task.status ∧
    (applyPriority actor task p).1.tags = task.tags ∧
    (applyPriority actor task p).1.completedAt = task.completedAt ∧
    (applyPriority actor task p).1.auditHistory =
      task.auditHistory ++ prioAudit actor task p := by
  unfold applyPriority prioAudit
  rcases hp : p.priority with _ | pr <;> simp
  split <;> simp

theorem priorityChange_congr (task task' : Task) (p : UpdatePatch)
    (h : task.priority = task'.priority) :
    priorityChange task p = priorityChange task' p := by
  unfold priorityChange; rw [h]

theorem prioAudit_congr (actor : Nat) (task task' : Task) (p : UpdatePatch)
    (h : task.priority = task'.priority) :
    prioAudit actor task p = prioAudit actor task' p := by
  unfold prioAudit; rw [h]

theorem statusChange_congr (task task' : Task) (p : UpdatePatch)
    (h : task.status = task'.status) :
    statusChange task p = statusChange task' p := by
  unfold statusChange; rw [h]

theorem statusAudit_congr (actor : Nat) (task task' : Task) (p : UpdatePatch)
    (h : task.status = task'.status) :
    statusAudit actor task p = statusAudit actor task' p := by
  unfold statusAudit; rw [h]

theorem titleChange_congr (task task' : Task) (p : UpdatePatch)
    (h : task.title = task'.title) :
    titleChange task p = titleChange task' p := by
  unfold titleChange; rw [h]

theorem applyStatus_err (actor : Nat) (task : Task) (p : UpdatePatch) (st : Status)
    (hp : p.status = some st) (h1 : st ≠ task.status)
    (hc : task.status = Status.completed) (hnc : st ≠ Status.completed) :
    applyStatus actor task p = Except.error UpdateErr.cannotRevert := by
  unfold applyStatus
  rw [hp]
  simp [h1, hc, hnc]

theorem applyStatus_ok_spec (actor : Nat) (task : Task) (p : UpdatePatch)
    (pr : Task × List String) (h : applyStatus actor task p = Except.ok pr) :
    pr.1.status = (p.status.getD task.status) ∧
    pr.1.tags = task.tags ∧
    pr.1.completedAt = task.completedAt ∧
    pr.1.auditHistory = task.auditHistory ++ statusAudit actor task p ∧
    pr.2 = statusChange task p := by
  obtain ⟨t', cs⟩ := pr
  unfold applyStatus at h
  unfold statusAudit statusChange
  rcases hp : p.status with _ | st <;> rw [hp] at h
  · simp at h
    simp [h.1, h.2]
  · by_cases h1 : st = task.status
    · rw [h1] at h
      simp at h
      simp [← h1, h1, h.1, h.2]
    · by_cases hc : task.status = Status.completed ∧ st ≠ Status.completed
      · simp [h1, hc] at h
      · simp [h1, hc] at h
        simp [h1, ← h.1, ← h.2]

theorem applyTags_fields (task : Task) (p : UpdatePatch) :
    (applyTags task p).status = task.status ∧
    (applyTags task p).completedAt = task.completedAt ∧
    (applyTags task p).auditHistory = task.auditHistory ∧
    (applyTags task p).tags = p.tags.getD task.tags := by
  unfold applyTags
  rcases hp : p.tags with _ | ts <;> simp

theorem updateTask_err (actor : Nat) (task0 : Task) (p : UpdatePatch) (now : Int)
    (st : Status) (hp : p.status = some st)
    (hc : task0.status = Status.completed) (hnc : st ≠ Status.completed) :
    updateTask actor task0 p now = Except.error UpdateErr.cannotRevert := by
  obtain ⟨a1, a2, a3, a4, a5, a6, a7⟩ := applyTitle_fields task0 p
  obtain ⟨b1, b2, b3, b4, b5, b6⟩ := applyDescription_fields (applyTitle task0 p).1 p
  obtain ⟨c1, c2, c3, c4, c5⟩ :=
    applyDueDate_fields (applyDescription (applyTitle task0 p).1 p).1 p
  obtain ⟨d1, d2, d3, d4⟩ :=
    applyPriority_fields actor (applyDueDate (applyDescription (applyTitle task0 p).1 p).1 p).1 p
  have hT4 : (applyPriority actor
      (applyDueDate (applyDescription (applyTitle task0 p).1 p).1 p).1 p).1.status
      = task0.status := by rw [d1, c2, b3, a4]
  have hS := applyStatus_err actor
    (applyPriority actor (applyDueDate (applyDescription (applyTitle task0 p).1 p).1 p).1 p).1
    p st hp (by rw [hT4, hc]; exact hnc) (by rw [hT4]; exact hc) hnc
  simp only [updateTask]
  rw [hS]

theorem updateTask_ok_spec (actor : Nat) (task0 : Task) (p : UpdatePatch) (now : Int)
    (t : Task) (h : updateTask actor task0 p now = Except.ok t) :
    t.auditHistory = task0.auditHistory ++ updateAudit actor task0 p ∧
    t.tags = p.tags.getD task0.tags ∧
    t.status = p.status.getD task0.status ∧
    t.completedAt = (if p.status.getD task0.status ≠ task0.status ∧
        p.status.getD task0.status = Status.completed ∧ task0.completedAt = none
      then some now else task0.completedAt) := by
  obtain ⟨a1, a2, a3, a4, a5, a6, a7⟩ := applyTitle_fields task0 p
  obtain ⟨b1, b2, b3, b4, b5, b6⟩ := applyDescription_fields (applyTitle task0 p).1 p
  obtain ⟨c1, c2, c3, c4, c5⟩ :=
    applyDueDate_fields (applyDescription (applyTitle task0 p).1 p).1 p
  obtain ⟨d1, d2, d3, d4⟩ :=
    applyPriority_fields actor (applyDueDate (applyDescription (applyTitle task0 p).1 p).1 p).1 p
  simp only [updateTask] at h
  rcases hS : applyStatus actor
      (applyPriority actor (applyDueDate (applyDescription (applyTitle task0 p).1 p).1 p).1 p).1 p
    with e | pr
  · rw [hS] at h
    cases h
  · rw [hS] at h
    dsimp only at h
    obtain ⟨e1, e2, e3, e4, e5⟩ := applyStatus_ok_spec actor _ p pr hS
    obtain ⟨f1, f2, f3, f4⟩ := applyTags_fields pr.1 p
    have hT4st : (applyPriority actor
        (applyDueDate (applyDescription (applyTitle task0 p).1 p).1 p).1 p).1.status
        = task0.status := by rw [d1, c2, b3, a4]
    have hch : (applyTitle task0 p).2 ++ (applyDescription (applyTitle task0 p).1 p).2 ++
        (applyDueDate (applyDescription (applyTitle task0 p).1 p).1 p).2 ++
        (applyPriority actor (applyDueDate (applyDescription (applyTitle task0 p).1 p).1 p).1 p).2 ++
        pr.2 = changedFields task0 p := by
      rw [applyTitle_snd, applyDescription_snd, applyDueDate_snd, applyPriority_snd, e5]
      rw [applyDescription_test _ task0 p a1]
      rw [dueDateChange_congr _ task0 p (by rw [b1, a2])]
      rw [priorityChange_congr _ task0 p (by rw [c1, b2, a3])]
      rw [statusChange_congr _ task0 p hT4st]
      rw [changedFields_eq]
    rw [hch] at h
    have haud : (applyTags pr.1 p).auditHistory =
        task0.auditHistory ++ (prioAudit actor task0 p ++ statusAudit actor task0 p) := by
      rw [f3, e4, d4, c4, b5, a6]
      rw [prioAudit_congr actor _ task0 p (by rw [c1, b2, a3])]
      rw [statusAudit_congr actor _ task0 p hT4st]
      rw [List.append_assoc]
    have hst : (applyTags pr.1 p).status = p.status.getD task0.status := by
      rw [f1, e1, hT4st]
    have hca : (applyTags pr.1 p).completedAt = task0.completedAt := by
      rw [f2, e3, d3, c5, b6, a7]
    have htg : (applyTags pr.1 p).tags = p.tags.getD task0.tags := by
      rw [f4, e2, d2, c3, b4, a5]
    by_cases hchg : changedFields task0 p = []
    · rw [if_pos hchg] at h
      unfold preSave at h
      by_cases hmod : (applyTags pr.1 p).status = task0.status
      · rw [if_neg (by simp [hmod])] at h
        cases h
        refine ⟨?_, htg, hst, ?_⟩
        · rw [haud]
          simp [updateAudit, hchg]
        · rw [hca, if_neg (by rw [← hst, hmod]; simp)]
      · rw [if_pos (by simpa using hmod)] at h
        by_cases hrev : task0.status = Status.completed ∧
            (applyTags pr.1 p).status ≠ Status.completed
        · rw [if_pos hrev] at h
          cases h
        · rw [if_neg hrev] at h
          by_cases hset : (applyTags pr.1 p).status = Status.completed ∧
              (applyTags pr.1 p).completedAt = none
          · rw [if_pos hset] at h
            cases h
            refine ⟨?_, ?_, ?_, ?_⟩
            · show (applyTags pr.1 p).auditHistory = _
              rw [haud]
              simp [updateAudit, hchg]
            · exact htg
            · exact hst
            · show some now = _
              rw [if_pos ⟨by rw [← hst]; exact hmod, by rw [← hst]; exact hset.1,
                by rw [← hca]; exact hset.2⟩]
          · rw [if_neg hset] at h
            cases h
            refine ⟨?_, htg, hst, ?_⟩
            · rw [haud]
              simp [updateAudit, hchg]
            · rw [hca, if_neg]
              intro hcond
              exact hset ⟨by rw [hst]; exact hcond.2.1, by rw [hca]; exact hcond.2.2⟩
    · rw [if_neg hchg] at h
      unfold preSave at h
      by_cases hmod : (applyTags pr.1 p).status = task0.status
      · rw [if_neg (by simp [hmod])] at h
        cases h
        refine ⟨?_, htg, hst, ?_⟩
        · show (applyTags pr.1 p).auditHistory ++ _ = _
          rw [haud]
          simp [updateAudit, hchg]
        · show (applyTags pr.1 p).completedAt = _
          rw [hca, if_neg (by rw [← hst, hmod]; simp)]
      · rw [if_pos (by simpa using hmod)] at h
        by_cases hrev : task0.status = Status.completed ∧
            (applyTags pr.1 p).status ≠ Status.completed
        · rw [if_pos hrev] at h
          cases h
        · rw [if_neg hrev] at h
          by_cases hset : (applyTags pr.1 p).status = Status.completed ∧
              (applyTags pr.1 p).completedAt = none
          · rw [if_pos hset] at h
            cases h
            refine ⟨?_, ?_, ?_, ?_⟩
            · show (applyTags pr.1 p).auditHistory ++ _ = _
              rw [haud]
              simp [updateAudit, hchg]
            · exact htg
            · exact hst
            · show some now = _
              rw [if_pos ⟨by rw [← hst]; exact hmod, by rw [← hst]; exact hset.1,
                by rw [← hca]; exact hset.2⟩]
          · rw [if_neg hset] at h
            cases h
            refine ⟨?_, htg, hst, ?_⟩
            · show (applyTags pr.1 p).auditHistory ++ _ = _
              rw [haud]
              simp [updateAudit, hchg]
            · show (applyTags pr.1 p).completedAt = _
              rw [hca, if_neg]
              intro hcond
              exact hset ⟨by rw [hst]; exact hcond.2.1, by rw [hca]; exact hcond.2.2⟩

theorem applyStatus_err_inv (actor : Nat) (task : Task) (p : UpdatePatch)
    (e : UpdateErr) (h : applyStatus actor task p = Except.error e) :
    ∃ st, p.status = some st ∧ st ≠ task.status ∧
      task.status = Status.completed ∧ st ≠ Status.completed := by
  unfold applyStatus at h
  rcases hp : p.status with _ | st <;> rw [hp] at h
  · cases h
  · by_cases h1 : st = task.status
    · rw [h1] at h
      simp at h
    · by_cases hc : task.status = Status.completed ∧ st ≠ Status.completed
      · exact ⟨st, rfl, h1, hc.1, hc.2⟩
      · simp [h1, hc] at h

theorem updateTask_ok_of (actor : Nat) (task0 : Task) (p : UpdatePatch) (now : Int)
    (hno : ∀ st, p.status = some st → st ≠ task0.status →
      ¬(task0.status = Status.completed ∧ st ≠ Status.completed)) :
    ∃ t, updateTask actor task0 p now = Except.ok t := by
  obtain ⟨a1, a2, a3, a4, a5, a6, a7⟩ := applyTitle_fields task0 p
  obtain ⟨b1, b2, b3, b4, b5, b6⟩ := applyDescription_fields (applyTitle task0 p).1 p
  obtain ⟨c1, c2, c3, c4, c5⟩ :=
    applyDueDate_fields (applyDescription (applyTitle task0 p).1 p).1 p
  obtain ⟨d1, d2, d3, d4⟩ :=
    applyPriority_fields actor (applyDueDate (applyDescription (applyTitle task0 p).1 p).1 p).1 p
  have hT4st : (applyPriority actor
      (applyDueDate (applyDescription (applyTitle task0 p).1 p).1 p).1 p).1.status
      = task0.status := by rw [d1, c2, b3, a4]
  simp only [updateTask]
  rcases hS : applyStatus actor
      (applyPriority actor (applyDueDate (applyDescription (applyTitle task0 p).1 p).1 p).1 p).1 p
    with e | pr
  · obtain ⟨st, hp1, hp2, hp3, hp4⟩ := applyStatus_err_inv actor _ p e hS
    rw [hT4st] at hp2 hp3
    exact absurd ⟨hp3, hp4⟩ (hno st hp1 hp2)
  · dsimp only
    obtain ⟨e1, e2, e3, e4, e5⟩ := applyStatus_ok_spec actor _ p pr hS
    obtain ⟨f1, f2, f3, f4⟩ := applyTags_fields pr.1 p
    have ht6 : (applyTags pr.1 p).status = p.status.getD task0.status := by
      rw [f1, e1, hT4st]
    have hmain : ∀ t7 : Task, t7.status = (applyTags pr.1 p).status →
        ∃ t, preSave task0 t7 now = Except.ok t := by
      intro t7 ht7
      unfold preSave
      by_cases hmod : t7.status = task0.status
      · rw [if_neg (by simp [hmod])]
        exact ⟨t7, rfl⟩
      · rw [if_pos (by simpa using hmod)]
        have hsome : ∃ st, p.status = some st ∧ st ≠ task0.status := by
          rcases hq : p.status with _ | st
          · rw [ht7, ht6, hq] at hmod
            simp at hmod
          · refine ⟨st, rfl, ?_⟩
            rw [ht7, ht6, hq] at hmod
            simpa using hmod
        obtain ⟨st, hq, hne⟩ := hsome
        have hstv : t7.status = st := by rw [ht7, ht6, hq]; rfl
        rw [if_neg (by
          intro hcond
          exact hno st hq hne ⟨hcond.1, by rw [← hstv]; exact hcond.2⟩)]
        by_cases hset : t7.status = Status.completed ∧ t7.completedAt = none
        · rw [if_pos hset]
          exact ⟨_, rfl⟩
        · rw [if_neg hset]
          exact ⟨t7, rfl⟩
    by_cases hchg : (applyTitle task0 p).2 ++ (applyDescription (applyTitle task0 p).1 p).2 ++
        (applyDueDate (applyDescription (applyTitle task0 p).1 p).1 p).2 ++
        (applyPriority actor (applyDueDate (applyDescription (applyTitle task0 p).1 p).1 p).1 p).2 ++
        pr.2 = []
    · rw [if_pos hchg]
      exact hmain _ rfl
    · rw [if_neg hchg]
      exact hmain _ rfl

theorem priorityChange_nil (actor : Nat) (task : Task) (p : UpdatePatch)
    (h : priorityChange task p = []) : prioAudit actor task p = [] := by
  unfold priorityChange at h
  unfold prioAudit
  rcases hp : p.priority with _ | pr
  · simp [hp]
  · rw [hp] at h
    simp at h
    simp [hp, h]

theorem statusChange_nil (actor : Nat) (task : Task) (p : UpdatePatch)
    (h : statusChange task p = []) : statusAudit actor task p = [] := by
  unfold statusChange at h
  unfold statusAudit
  rcases hp : p.status with _ | st
  · simp [hp]
  · rw [hp] at h
    simp at h
    simp [hp, h]

theorem updateAudit_nil (actor : Nat) (task : Task) (p : UpdatePatch)
    (h : changedFields task p = []) : updateAudit actor task p = [] := by
  have hd := changedFields_eq task p
  rw [h] at hd
  have h5 := hd.symm
  simp only [List.append_eq_nil] at h5
  unfold updateAudit
  rw [priorityChange_nil actor task p h5.1.2, statusChange_nil actor task p h5.2,
    if_pos h]
  simp

theorem titleChange_sub (task : Task) (p : UpdatePatch) :
    List.Sublist (titleChange task p) ["title"] := by
  unfold titleChange
  split
  · split <;> simp
  · simp

theorem descriptionChange_sub (task : Task) (p : UpdatePatch) :
    List.Sublist (descriptionChange task p) ["description"] := by
  unfold descriptionChange
  split
  · split <;> simp
  · simp

theorem dueDateChange_sub (task : Task) (p : UpdatePatch) :
    List.Sublist (dueDateChange task p) ["dueDate"] := by
  unfold dueDateChange
  split
  · split <;> simp
  · simp

theorem priorityChange_sub (task : Task) (p : UpdatePatch) :
    List.Sublist (priorityChange task p) ["priority"] := by
  unfold priorityChange
  split
  · split <;> simp
  · simp

theorem statusChange_sub (task : Task) (p : UpdatePatch) :
    List.Sublist (statusChange task p) ["status"] := by
  unfold statusChange
  split
  · split <;> simp
  · simp

theorem changedFields_sub (task : Task) (p : UpdatePatch) :
    List.Sublist (changedFields task p) ["title", "description", "dueDate", "priority", "status"] := by
  rw [changedFields_eq]
  have h := ((((titleChange_sub task p).append (descriptionChange_sub task p)).append
    (dueDateChange_sub task p)).append (priorityChange_sub task p)).append
    (statusChange_sub task p)
  simpa using h

/-- C1: once a task's status is Completed, an update patch carrying any
other status value fails with the invalid-transition error, and the
persisted task is completely unchanged: no patch field is applied and no
audit entry is persisted, because the handler returns before `save()`. -/
theorem claim_C1_completed_status_update_atomic_failure
    (actor : Nat) (task0 : Task) (p : UpdatePatch) (now : Int) (st : Status)
    (hc : task0.status = Status.completed) (hp : p.status = some st)
    (hst : st ≠ Status.completed) :
    updateTask actor task0 p now = Except.error UpdateErr.cannotRevert ∧
    persistedAfterUpdate task0 (updateTask actor task0 p now) = task0 := by
  have he := updateTask_err actor task0 p now st hp hc hst
  refine ⟨he, ?_⟩
  rw [he]
  rfl

theorem claim_C1_witness :
    updateTask 1 wTaskDone wPatchRevert 300 = Except.error UpdateErr.cannotRevert ∧
    persistedAfterUpdate wTaskDone (updateTask 1 wTaskDone wPatchRevert 300) = wTaskDone :=
  claim_C1_completed_status_update_atomic_failure 1 wTaskDone wPatchRevert 300
    Status.inProgress rfl rfl (by decide)

/-- C5: an update whose patch changes priority appends, for that change,
exactly one `priority_changed` entry carrying the old and new priority and
exactly one generic `updated` entry whose description comma-joins the
changed field names in the fixed order title, description, dueDate,
priority, status. -/
theorem claim_C5_priority_change_two_audit_entries
    (actor : Nat) (task0 : Task) (p : UpdatePatch) (now : Int) (pr : Priority)
    (hp : p.priority = some pr) (hne : pr ≠ task0.priority) :
    (∀ t, updateTask actor task0 p now = Except.ok t →
      t.auditHistory = task0.auditHistory ++ updateAudit actor task0 p) ∧
    (updateAudit actor task0 p).filter
        (fun e => decide (e.action = AuditAction.priority_changed)) =
      [priorityChangedEntry actor task0.priority pr] ∧
    (updateAudit actor task0 p).filter
        (fun e => decide (e.action = AuditAction.updated)) =
      [updatedEntry actor (changedFields task0 p)] ∧
    (updatedEntry actor (changedFields task0 p)).description =
      some ("Updated: " ++ String.intercalate ", " (changedFields task0 p)) ∧
    "priority" ∈ changedFields task0 p ∧
    List.Sublist (changedFields task0 p)
      ["title", "description", "dueDate", "priority", "status"] := by
  have hpa : prioAudit actor task0 p = [priorityChangedEntry actor task0.priority pr] := by
    unfold prioAudit
    rw [hp]
    simp [hne]
  have hmem : "priority" ∈ changedFields task0 p := by
    rw [changedFields_eq]
    have hpc : priorityChange task0 p = ["priority"] := by
      unfold priorityChange
      rw [hp]
      simp [hne]
    simp [hpc]
  have hnonnil : changedFields task0 p ≠ [] := by
    intro h0
    rw [h0] at hmem
    cases hmem
  have hsf1 : (statusAudit actor task0 p).filter
      (fun e => decide (e.action = AuditAction.priority_changed)) = [] := by
    unfold statusAudit
    split
    · split <;> simp [statusChangedEntry]
    · simp
  have hsf2 : (statusAudit actor task0 p).filter
      (fun e => decide (e.action = AuditAction.updated)) = [] := by
    unfold statusAudit
    split
    · split <;> simp [statusChangedEntry]
    · simp
  refine ⟨?_, ?_, ?_, rfl, hmem, changedFields_sub task0 p⟩
  · intro t ht
    exact (updateTask_ok_spec actor task0 p now t ht).1
  · unfold updateAudit
    rw [List.filter_append, List.filter_append, hpa, if_neg hnonnil, hsf1]
    simp [priorityChangedEntry, updatedEntry]
  · unfold updateAudit
    rw [List.filter_append, List.filter_append, hpa, if_neg hnonnil, hsf2]
    simp [priorityChangedEntry, updatedEntry]

theorem claim_C5_witness :
    (updateAudit 1 wTaskMed wPatchPrio).filter
        (fun e => decide (e.action = AuditAction.priority_changed)) =
      [priorityChangedEntry 1 Priority.medium Priority.high] ∧
    (updateAudit 1 wTaskMed wPatchPrio).filter
        (fun e => decide (e.action = AuditAction.updated)) =
      [updatedEntry 1 (changedFields wTaskMed wPatchPrio)] ∧
    "priority" ∈ changedFields wTaskMed wPatchPrio := by
  have h := claim_C5_priority_change_two_audit_entries 1 wTaskMed wPatchPrio 0
    Priority.high rfl (by decide)
  exact ⟨h.2.1, h.2.2.1, h.2.2.2.2.1⟩

/-- C6: a patch containing tags replaces the task's tags wholesale on any
successful update, and a patch in which tags is the only differing field
succeeds without appending any audit entry. -/
theorem claim_C6_tags_wholesale_no_audit
    (actor : Nat) (task0 : Task) (p : UpdatePatch) (now : Int) (ts : List String)
    (hts : p.tags = some ts) (hchg : changedFields task0 p = []) :
    (∀ (task0' t' : Task), updateTask actor task0' p now = Except.ok t' → t'.tags = ts) ∧
    ∃ t, updateTask actor task0 p now = Except.ok t ∧ t.tags = ts ∧
      t.auditHistory = task0.auditHistory := by
  constructor
  · intro task0' t' h
    have htg := (updateTask_ok_spec actor task0' p now t' h).2.1
    rw [hts] at htg
    exact htg
  · have hd := changedFields_eq task0 p
    rw [hchg] at hd
    have h5 := hd.symm
    simp only [List.append_eq_nil] at h5
    have hno : ∀ st, p.status = some st → st ≠ task0.status →
        ¬(task0.status = Status.completed ∧ st ≠ Status.completed) := by
      intro st hq hneq
      exfalso
      have hsc := h5.2
      unfold statusChange at hsc
      rw [hq] at hsc
      simp [hneq] at hsc
    obtain ⟨t, hok⟩ := updateTask_ok_of actor task0 p now hno
    obtain ⟨ha, htg, hst, hca⟩ := updateTask_ok_spec actor task0 p now t hok
    refine ⟨t, hok, ?_, ?_⟩
    · rw [hts] at htg
      exact htg
    · rw [ha, updateAudit_nil actor task0 p hchg]
      simp

theorem claim_C6_witness :
    ∃ t, updateTask 1 wTaskMed wPatchTags 0 = Except.ok t ∧
      t.tags = ["backend", "urgent"] ∧ t.auditHistory = wTaskMed.auditHistory :=
  (claim_C6_tags_wholesale_no_audit 1 wTaskMed wPatchTags 0 ["backend", "urgent"]
    rfl (by decide)).2

theorem deleteUser_tasks_spec (reqU targetId : Nat) (r : Option Nat) (store : Store)
    (res : DeleteUserResult) (store' : Store)
    (h : deleteUser reqU targetId r store = (res, store')) :
    ∀ q ∈ store'.tasks, ∃ q0 ∈ store.tasks, q0.1 = q.1 ∧
      q0.2.completedAt = q.2.completedAt ∧
      q0.2.auditHistory <+: q.2.auditHistory := by
  unfold deleteUser at h
  by_cases h0 : targetId = reqU
  · rw [if_pos h0] at h
    cases h
    intro q hq
    exact ⟨q, hq, rfl, rfl, List.prefix_rfl⟩
  · rw [if_neg h0] at h
    rcases hf : store.users.find? (fun u => u.id = targetId) with _ | user <;>
      rw [hf] at h <;> dsimp only at h
    · cases h
      intro q hq
      exact ⟨q, hq, rfl, rfl, List.prefix_rfl⟩
    · by_cases hn : (pendingTasks targetId store).length > 0
      · rw [if_pos hn] at h
        rcases r with _ | rv <;> dsimp only at h
        · cases h
          intro q hq
          exact ⟨q, hq, rfl, rfl, List.prefix_rfl⟩
        · rcases hf2 : store.users.find? (fun u => u.id = rv) with _ | ru <;>
            rw [hf2] at h <;> dsimp only at h
          · cases h
            intro q hq
            exact ⟨q, hq, rfl, rfl, List.prefix_rfl⟩
          · cases h
            intro q hq
            simp only [List.mem_map] at hq
            obtain ⟨q0, hq0, hfq⟩ := hq
            by_cases hcond : q0.2.assignedTo = targetId ∧ q0.2.isDeleted = false
            · rw [if_pos hcond] at hfq
              refine ⟨q0, hq0, ?_, ?_, ?_⟩ <;> rw [← hfq]
              exact List.prefix_append _ _
            · rw [if_neg hcond] at hfq
              rw [← hfq]
              exact ⟨q0, hq0, rfl, rfl, List.prefix_rfl⟩
      · rw [if_neg hn] at h
        cases h
        intro q hq
        exact ⟨q, hq, rfl, rfl, List.prefix_rfl⟩

/-- C3: completedAt is assigned the first time a successful update moves the
status to Completed while it is unset, a successful update never changes an
already-set completedAt, and no other mutation (soft delete, comment,
attachments, user-deletion reassignment) touches it. -/
theorem claim_C3_completedAt_set_exactly_once
    (actor : Nat) (task0 : Task) (p : UpdatePatch) (now : Int) (t : Task) (c : Int) :
    (task0.completedAt = none → p.status = some Status.completed →
      task0.status ≠ Status.completed →
      updateTask actor task0 p now = Except.ok t → t.completedAt = some now) ∧
    (task0.completedAt = some c → updateTask actor task0 p now = Except.ok t →
      t.completedAt = some c) ∧
    ((deleteTask task0).completedAt = task0.completedAt) ∧
    (∀ text, (addComment actor task0 text).completedAt = task0.completedAt) ∧
    (∀ a, (addAttachment actor task0 a).completedAt = task0.completedAt) ∧
    (∀ aid t', removeAttachment actor task0 aid = Except.ok t' →
      t'.completedAt = task0.completedAt) ∧
    (∀ reqU targetId r store res store',
      deleteUser reqU targetId r store = (res, store') →
      ∀ q ∈ store'.tasks, ∃ q0 ∈ store.tasks, q0.1 = q.1 ∧
        q0.2.completedAt = q.2.completedAt) := by
  refine ⟨?_, ?_, rfl, fun _ => rfl, fun _ => rfl, ?_, ?_⟩
  · intro hnone hst hne hok
    have hcond : p.status.getD task0.status ≠ task0.status ∧
        p.status.getD task0.status = Status.completed ∧ task0.completedAt = none := by
      rw [hst]
      exact ⟨by simpa using Ne.symm hne, by simp, hnone⟩
    rw [(updateTask_ok_spec actor task0 p now t hok).2.2.2, if_pos hcond]
  · intro hsome hok
    have hca := (updateTask_ok_spec actor task0 p now t hok).2.2.2
    rw [hca, if_neg (by
      intro hcond
      rw [hsome] at hcond
      exact Option.noConfusion hcond.2.2)]
    exact hsome
  · intro aid t' h
    unfold removeAttachment at h
    split at h
    · cases h
    · cases h
      rfl
  · intro reqU targetId r store res store' h q hq
    obtain ⟨q0, hq0, h1, h2, _⟩ :=
      deleteUser_tasks_spec reqU targetId r store res store' h q hq
    exact ⟨q0, hq0, h1, h2⟩

theorem claim_C3_witness :
    wTaskMed.completedAt = none ∧ wTaskMedDone.completedAt = some 77 :=
  ⟨rfl, (claim_C3_completedAt_set_exactly_once 1 wTaskMed wPatchDone 77 wTaskMedDone 0).1
    rfl rfl (by decide) rfl⟩

/-- C4: every mutation only ever appends to auditHistory: the prior audit
list is a prefix of the resulting one for create, update, soft delete,
comment, attachment add/remove, and the user-deletion reassignment loop. -/
theorem claim_C4_audit_append_only
    (actor creator : Nat) (task0 : Task) (p : UpdatePatch) (now : Int)
    (title descr : String) (assignedTo : Nat) (dueDate : Int)
    (priority : Option Priority) (tags : Option (List String)) (name : String) :
    ((createTask creator title descr assignedTo dueDate priority tags name).auditHistory =
      [createdEntry creator name]) ∧
    (∀ t, updateTask actor task0 p now = Except.ok t →
      task0.auditHistory <+: t.auditHistory) ∧
    ((deleteTask task0).auditHistory = task0.auditHistory) ∧
    (∀ text, task0.auditHistory <+: (addComment actor task0 text).auditHistory) ∧
    (∀ a, task0.auditHistory <+: (addAttachment actor task0 a).auditHistory) ∧
    (∀ aid t', removeAttachment actor task0 aid = Except.ok t' →
      task0.auditHistory <+: t'.auditHistory) ∧
    (∀ reqU targetId r store res store',
      deleteUser reqU targetId r store = (res, store') →
      ∀ q ∈ store'.tasks, ∃ q0 ∈ store.tasks, q0.1 = q.1 ∧
        q0.2.auditHistory <+: q.2.auditHistory) := by
  refine ⟨rfl, ?_, rfl, fun text => ⟨[commentAddedEntry actor], rfl⟩,
    fun a => ⟨[attachmentAddedEntry actor a.originalName], rfl⟩, ?_, ?_⟩
  · intro t ht
    exact ⟨updateAudit actor task0 p, ((updateTask_ok_spec actor task0 p now t ht).1).symm⟩
  · intro aid t' h
    unfold removeAttachment at h
    split at h
    · cases h
    · cases h
      exact ⟨_, rfl⟩
  · intro reqU targetId r store res store' h q hq
    obtain ⟨q0, hq0, h1, _, h3⟩ :=
      deleteUser_tasks_spec reqU targetId r store res store' h q hq
    exact ⟨q0, hq0, h1, h3⟩

theorem claim_C4_witness :
    (createTask 1 "T" "D" 2 100 none none "Bo").auditHistory = [createdEntry 1 "Bo"] ∧
    wTaskMed.auditHistory <+: (addComment 1 wTaskMed "done").auditHistory := by
  have h := claim_C4_audit_append_only 1 1 wTaskMed wPatchPrio 0 "T" "D" 2 100 none none "Bo"
  exact ⟨h.1, h.2.2.2.1 "done"⟩

/-- C2: deleting a user who still owns non-deleted tasks fails without
`reassignTo`, reporting the exact pending-task count and leaving the store
untouched; with a resolvable `reassignTo` every such task is reassigned with
exactly one `reassigned` audit entry appended, other tasks are untouched,
and the user is deleted. -/
theorem claim_C2_delete_user_reassignment_protocol
    (reqU targetId : Nat) (store : Store) (user : User) (n : Nat)
    (hneq : targetId ≠ reqU)
    (hfind : store.users.find? (fun u => u.id = targetId) = some user)
    (hn : (pendingTasks targetId store).length = n) (hpos : 0 < n) :
    (deleteUser reqU targetId none store =
      (DeleteUserResult.tasksNeedReassign n, store)) ∧
    (∀ rv ru, store.users.find? (fun u => u.id = rv) = some ru →
      ∃ store', deleteUser reqU targetId (some rv) store =
          (DeleteUserResult.deleted n, store') ∧
        store'.users = store.users.filter (fun u => u.id ≠ targetId) ∧
        (∀ u ∈ store'.users, u.id ≠ targetId) ∧
        store'.tasks.length = store.tasks.length ∧
        (∀ q ∈ store.tasks, q.2.assignedTo = targetId → q.2.isDeleted = false →
          (q.1, { q.2 with
            assignedTo := rv,
            auditHistory := q.2.auditHistory ++
              [reassignedEntry reqU user.name ru.name] }) ∈ store'.tasks) ∧
        (∀ q ∈ store.tasks, ¬(q.2.assignedTo = targetId ∧ q.2.isDeleted = false) →
          q ∈ store'.tasks)) := by
  subst hn
  constructor
  · unfold deleteUser
    rw [if_neg hneq, hfind]
    dsimp only
    rw [if_pos hpos]
  · intro rv ru hfr
    unfold deleteUser
    rw [if_neg hneq, hfind]
    dsimp only
    rw [if_pos hpos, hfr]
    dsimp only
    refine ⟨_, rfl, rfl, ?_, ?_, ?_, ?_⟩
    · intro u hu
      simp only [List.mem_filter, decide_not] at hu
      simpa using hu.2
    · simp
    · intro q hq h1 h2
      refine List.mem_map.mpr ⟨q, hq, ?_⟩
      rw [if_pos ⟨h1, h2⟩]
    · intro q hq hnot
      refine List.mem_map.mpr ⟨q, hq, ?_⟩
      rw [if_neg hnot]

theorem claim_C2_witness :
    deleteUser 1 2 none wStore = (DeleteUserResult.tasksNeedReassign 2, wStore) ∧
    ∃ store', deleteUser 1 2 (some 3) wStore = (DeleteUserResult.deleted 2, store') ∧
      store'.users = wStore.users.filter (fun u => u.id ≠ 2) ∧
      (∀ u ∈ store'.users, u.id ≠ 2) ∧
      store'.tasks.length = wStore.tasks.length ∧
      (∀ q ∈ wStore.tasks, q.2.assignedTo = 2 → q.2.isDeleted = false →
        (q.1, { q.2 with
          assignedTo := 3,
          auditHistory := q.2.auditHistory ++
            [reassignedEntry 1 wUserTia.name wUserRaj.name] }) ∈ store'.tasks) ∧
      (∀ q ∈ wStore.tasks, ¬(q.2.assignedTo = 2 ∧ q.2.isDeleted = false) →
        q ∈ store'.tasks) := by
  have h := claim_C2_delete_user_reassignment_protocol 1 2 wStore wUserTia 2
    (by decide) rfl rfl (by decide)
  exact ⟨h.1, h.2 3 wUserRaj rfl⟩

/-- C10: a delete-user request whose target id equals the requester's own id
fails with the self-deletion error before any task counting, reassignment or
deletion: the store is returned unchanged, whatever `reassignTo` holds. -/
theorem claim_C10_no_self_delete (uid : Nat) (reassignTo : Option Nat) (store : Store) :
    deleteUser uid uid reassignTo store = (DeleteUserResult.selfDelete, store) := by
  unfold deleteUser
  rw [if_pos rfl]

/-- C7: `broadcastToUser` serializes the event once and delivers that same
payload to every connection in the user's set whose transport is open;
connections not open are skipped silently and every performed send comes
from an open connection in the set. -/
theorem claim_C7_broadcast_to_user
    (reg : Registry) (userId : Nat) (event : WSEvent) (conns : List Conn)
    (hfind : reg.clients.find? (fun p => p.1 = userId) = some (userId, conns)) :
    (∀ ws ∈ conns, ws.readyState = ConnState.opened →
      (ws.id, serializeEvent event) ∈ broadcastToUser reg userId event) ∧
    (∀ s ∈ broadcastToUser reg userId event, s.2 = serializeEvent event) ∧
    (∀ s ∈ broadcastToUser reg userId event, ∃ ws ∈ conns,
      ws.readyState = ConnState.opened ∧ s = (ws.id, serializeEvent event)) ∧
    (broadcastToUser reg userId event).length =
      (conns.filter (fun ws => ws.readyState = ConnState.opened)).length := by
  unfold broadcastToUser
  rw [hfind]
  dsimp only
  refine ⟨?_, ?_, ?_, by simp⟩
  · intro ws hws hopen
    exact List.mem_map.mpr ⟨ws, List.mem_filter.mpr ⟨hws, by simp [hopen]⟩, rfl⟩
  · intro s hs
    obtain ⟨ws, hmem, heq⟩ := List.mem_map.mp hs
    rw [← heq]
  · intro s hs
    obtain ⟨ws, hmem, heq⟩ := List.mem_map.mp hs
    obtain ⟨hin, hop⟩ := List.mem_filter.mp hmem
    exact ⟨ws, hin, by simpa using hop, heq.symm⟩

theorem claim_C7_witness :
    (100, serializeEvent (WSEvent.taskUpdated 10)) ∈
      broadcastToUser wReg 7 (WSEvent.taskUpdated 10) ∧
    (101, serializeEvent (WSEvent.taskUpdated 10)) ∈
      broadcastToUser wReg 7 (WSEvent.taskUpdated 10) ∧
    (broadcastToUser wReg 7 (WSEvent.taskUpdated 10)).length =
      ([wConnA, wConnB, wConnC].filter
        (fun ws => ws.readyState = ConnState.opened)).length := by
  have h := claim_C7_broadcast_to_user wReg 7 (WSEvent.taskUpdated 10)
    [wConnA, wConnB, wConnC] rfl
  exact ⟨h.1 wConnA (by simp) rfl, h.1 wConnB (by simp) rfl, h.2.2.2⟩

theorem sweep_reg_clients (reg : Registry) :
    ((heartbeatSweep reg).1).clients =
      (reg.clients.map (fun p =>
        (p.1, (p.2.filter (fun c => c.isAlive = true)).map
          (fun c => { c with isAlive := false })))).filter (fun p => p.2 ≠ []) := rfl

theorem memAllConns {reg : Registry} {c : Conn} :
    c ∈ reg.allConns ↔ ∃ p ∈ reg.clients, c ∈ p.2 := by
  unfold Registry.allConns
  exact List.mem_flatMap

theorem find?_key_eq (l : List (Nat × List Conn)) (k : Nat) (p : Nat × List Conn)
    (hnd : (l.map (fun q => q.1)).Nodup) (hp : p ∈ l) (hk : p.1 = k) :
    l.find? (fun q => q.1 = k) = some p := by
  induction l with
  | nil => cases hp
  | cons a l ih =>
    simp only [List.map_cons, List.nodup_cons] at hnd
    cases hp with
    | head => rw [List.find?_cons_of_pos _ (by simp [hk])]
    | tail _ hp =>
      have ha : ¬(a.1 = k) := by
        intro hak
        apply hnd.1
        rw [hak, ← hk]
        exact List.mem_map_of_mem _ hp
      rw [List.find?_cons_of_neg _ (by simp [ha])]
      exact ih hnd.2 hp

theorem sweep_all_false (reg : Registry) :
    ∀ c ∈ Registry.allConns (heartbeatSweep reg).1, c.isAlive = false := by
  intro c hc
  obtain ⟨p, hp, hcp⟩ := memAllConns.mp hc
  rw [sweep_reg_clients] at hp
  obtain ⟨p0, hp0, hpe⟩ := List.mem_map.mp (List.mem_filter.mp hp).1
  rw [← hpe] at hcp
  dsimp only at hcp
  obtain ⟨c0, hc0, hce⟩ := List.mem_map.mp hcp
  rw [← hce]

theorem sweep_of_all_false (reg : Registry)
    (hall : ∀ c ∈ reg.allConns, c.isAlive = false) :
    ((heartbeatSweep reg).1).clients = [] := by
  rw [sweep_reg_clients, List.filter_eq_nil_iff]
  intro p hp
  obtain ⟨p0, hp0, hpe⟩ := List.mem_map.mp hp
  have hfe : p0.2.filter (fun c => c.isAlive = true) = [] := by
    rw [List.filter_eq_nil_iff]
    intro c hc
    have hfalse := hall c (memAllConns.mpr ⟨p0, hp0, hc⟩)
    simp [hfalse]
  rw [← hpe]
  dsimp only
  rw [hfe]
  simp

/-- C8: the 30-second sweep terminates every tracked connection whose
liveness flag is false and removes it from the registry; every live
connection is kept with its flag cleared and is sent a probe; a connection
that answers no probe across two consecutive sweeps is gone; no user ever
maps to an empty set after a sweep; and the close path drops a user's
registry entry when its last connection is removed. -/
theorem claim_C8_heartbeat_sweep (reg : Registry) (hwf : reg.Wellformed) :
    heartbeatIntervalMs = 30000 ∧
    (∀ c ∈ reg.allConns, c.isAlive = false →
      c.id ∈ (heartbeatSweep reg).2.1 ∧
      c.id ∉ Registry.connIds (heartbeatSweep reg).1) ∧
    (∀ c ∈ reg.allConns, c.isAlive = true →
      c.id ∈ (heartbeatSweep reg).2.2 ∧
      { c with isAlive := false } ∈ Registry.allConns (heartbeatSweep reg).1) ∧
    (∀ c ∈ reg.allConns,
      c.id ∉ Registry.connIds (heartbeatSweep (heartbeatSweep reg).1).1) ∧
    (∀ p ∈ ((heartbeatSweep reg).1).clients, p.2 ≠ []) ∧
    (∀ ws, ∀ p ∈ reg.clients, p.1 = ws.userId → p.2 = [ws] →
      (handleDisconnection reg ws).clients.find? (fun q => q.1 = ws.userId) = none) ∧
    (∀ ws, ∀ p ∈ (handleDisconnection reg ws).clients, p.2 ≠ []) := by
  obtain ⟨hkeys, huid, hids, hne⟩ := hwf
  unfold Registry.connIds at hids
  refine ⟨rfl, ?_, ?_, ?_, ?_, ?_, ?_⟩
  · intro c hc hdead
    constructor
    · exact List.mem_map_of_mem _ (List.mem_filter.mpr ⟨hc, by simp [hdead]⟩)
    · intro hmem
      unfold Registry.connIds at hmem
      obtain ⟨c', hc', hcid⟩ := List.mem_map.mp hmem
      obtain ⟨p, hp, hcp⟩ := memAllConns.mp hc'
      rw [sweep_reg_clients] at hp
      obtain ⟨p0, hp0, hpe⟩ := List.mem_map.mp (List.mem_filter.mp hp).1
      rw [← hpe] at hcp
      dsimp only at hcp
      obtain ⟨c0, hc0m, hc0e⟩ := List.mem_map.mp hcp
      obtain ⟨hc0in, hc0alive⟩ := List.mem_filter.mp hc0m
      have hc0all : c0 ∈ reg.allConns := memAllConns.mpr ⟨p0, hp0, hc0in⟩
      have hcid0 : c0.id = c.id := by
        rw [← hc0e] at hcid
        simpa using hcid
      have hceq : c0 = c := List.inj_on_of_nodup_map hids hc0all hc hcid0
      rw [hceq, hdead] at hc0alive
      simp at hc0alive
  · intro c hc halive
    constructor
    · exact List.mem_map_of_mem _ (List.mem_filter.mpr ⟨hc, by simp [halive]⟩)
    · obtain ⟨p, hp, hcp⟩ := memAllConns.mp hc
      have hcm : { c with isAlive := false } ∈
          (p.2.filter (fun c => c.isAlive = true)).map
            (fun c => { c with isAlive := false }) :=
        List.mem_map_of_mem _ (List.mem_filter.mpr ⟨hcp, by simp [halive]⟩)
      refine memAllConns.mpr ⟨(p.1, (p.2.filter (fun c => c.isAlive = true)).map
        (fun c => { c with isAlive := false })), ?_, hcm⟩
      rw [sweep_reg_clients]
      refine List.mem_filter.mpr ⟨List.mem_map_of_mem _ hp, ?_⟩
      have hnonnil : ((p.2.filter (fun c => c.isAlive = true)).map
          (fun c => { c with isAlive := false })) ≠ [] := List.ne_nil_of_mem hcm
      simpa using hnonnil
  · intro c hc hmem
    have hclients : ((heartbeatSweep (heartbeatSweep reg).1).1).clients = [] :=
      sweep_of_all_false _ (sweep_all_false reg)
    unfold Registry.connIds Registry.allConns at hmem
    rw [hclients] at hmem
    simp at hmem
  · intro p hp
    rw [sweep_reg_clients] at hp
    have h2 := (List.mem_filter.mp hp).2
    simpa using h2
  · intro ws p hp hkey hsingle
    unfold handleDisconnection
    rw [find?_key_eq reg.clients ws.userId p hkeys hp hkey]
    dsimp only
    rw [hsingle]
    have herase : ([ws] : List Conn).erase ws = [] := by simp
    have h0 : (([] : List Conn).length = 0) := rfl
    rw [herase, if_pos h0, List.find?_eq_none]
    intro q hq
    have hq2 := (List.mem_filter.mp hq).2
    simp at hq2 ⊢
    exact hq2
  · intro ws p hp
    unfold handleDisconnection at hp
    rcases hf : reg.clients.find? (fun q => q.1 = ws.userId) with _ | q <;>
      rw [hf] at hp <;> dsimp only at hp
    · exact hne p hp
    · by_cases hlen : (q.2.erase ws).length = 0
      · rw [if_pos hlen] at hp
        exact hne p (List.mem_filter.mp hp).1
      · rw [if_neg hlen] at hp
        obtain ⟨p0, hp0, hpe⟩ := List.mem_map.mp hp
        by_cases hpk : p0.1 = ws.userId
        · rw [if_pos hpk] at hpe
          rw [← hpe]
          dsimp only
          intro hemp
          exact hlen (by rw [List.length_eq_zero]; exact hemp)
        · rw [if_neg hpk] at hpe
          rw [← hpe]
          exact hne p0 hp0

theorem claim_C8_witness :
    heartbeatIntervalMs = 30000 ∧
    (102 ∈ (heartbeatSweep wReg).2.1 ∧
      102 ∉ Registry.connIds (heartbeatSweep wReg).1) ∧
    100 ∈ (heartbeatSweep wReg).2.2 := by
  have h := claim_C8_heartbeat_sweep wReg
    (by unfold Registry.Wellformed; refine ⟨?_, ?_, ?_, ?_⟩ <;> decide)
  exact ⟨h.1, h.2.1 wConnC (by decide) rfl, (h.2.2.1 wConnA (by decide) rfl).1⟩

theorem onClose_clean (s : WSClientState) :
    onClose s cleanCloseCode = (s, none) := by
  unfold onClose
  by_cases hm : s.mounted = false
  · rw [if_pos hm]
  · rw [if_neg hm, if_neg (by simp)]

theorem runCloses_clean (s : WSClientState) (n : Nat) :
    (runCloses s (List.replicate n cleanCloseCode)).2 = [] := by
  induction n with
  | zero => simp [runCloses]
  | succ n ih => simp [List.replicate_succ, runCloses, onClose_clean, ih]

theorem runCloses_spec (codes : List Nat) : ∀ s : WSClientState,
    ((runCloses s codes).2).length ≤ maxReconnectAttempts - s.attempts ∧
    List.Chain' (· < ·)
      ((reconnectBaseDelayMs * s.attempts) :: (runCloses s codes).2) := by
  induction codes with
  | nil =>
    intro s
    simp [runCloses]
  | cons c cs ih =>
    intro s
    by_cases hm : s.mounted = false
    · have ho : onClose s c = (s, none) := by
        unfold onClose
        rw [if_pos hm]
      simp only [runCloses, ho, Option.toList_none, List.nil_append]
      exact ih s
    · by_cases hcond : c ≠ cleanCloseCode ∧ s.attempts < maxReconnectAttempts ∧ s.hasToken
      · have ho : onClose s c = ({ s with attempts := s.attempts + 1 },
            some (reconnectBaseDelayMs * (s.attempts + 1))) := by
          unfold onClose
          rw [if_neg hm, if_pos hcond]
        simp only [runCloses, ho, Option.toList_some, List.singleton_append]
        obtain ⟨ih1, ih2⟩ := ih { s with attempts := s.attempts + 1 }
        constructor
        · simp only [List.length_cons]
          have hlt := hcond.2.1
          dsimp only at ih1
          unfold maxReconnectAttempts at hlt ih1 ⊢
          omega
        · rw [List.chain'_cons]
          refine ⟨?_, ih2⟩
          unfold reconnectBaseDelayMs
          omega
      · have ho : onClose s c = (s, none) := by
          unfold onClose
          rw [if_neg hm, if_neg hcond]
        simp only [runCloses, ho, Option.toList_none, List.nil_append]
        exact ih s

theorem runCloses_delays_form (codes : List Nat) : ∀ s : WSClientState,
    ∀ d ∈ (runCloses s codes).2, ∃ k, s.attempts < k ∧ k ≤ maxReconnectAttempts ∧
      d = reconnectBaseDelayMs * k := by
  induction codes with
  | nil =>
    intro s d hd
    simp [runCloses] at hd
  | cons c cs ih =>
    intro s d hd
    by_cases hm : s.mounted = false
    · have ho : onClose s c = (s, none) := by
        unfold onClose
        rw [if_pos hm]
      simp only [runCloses, ho, Option.toList_none, List.nil_append] at hd
      exact ih s d hd
    · by_cases hcond : c ≠ cleanCloseCode ∧ s.attempts < maxReconnectAttempts ∧ s.hasToken
      · have ho : onClose s c = ({ s with attempts := s.attempts + 1 },
            some (reconnectBaseDelayMs * (s.attempts + 1))) := by
          unfold onClose
          rw [if_neg hm, if_pos hcond]
        simp only [runCloses, ho, Option.toList_some, List.singleton_append,
          List.mem_cons] at hd
        rcases hd with rfl | hd
        · exact ⟨s.attempts + 1, Nat.lt_succ_self _, hcond.2.1, rfl⟩
        · obtain ⟨k, hk1, hk2, hk3⟩ := ih { s with attempts := s.attempts + 1 } d hd
          dsimp only at hk1
          exact ⟨k, by omega, hk2, hk3⟩
      · have ho : onClose s c = (s, none) := by
          unfold onClose
          rw [if_neg hm, if_neg hcond]
        simp only [runCloses, ho, Option.toList_none, List.nil_append] at hd
        exact ih s d hd

/-- C9: starting from a fresh attempt counter, any sequence of close events
schedules at most 3 reconnections, with strictly increasing delays, each
equal to the base interval times the incremented attempt count; a clean
closure (code 1000), a missing credential, or teardown schedules nothing. -/
theorem claim_C9_reconnection_bounded_backoff
    (s : WSClientState) (codes : List Nat) (code : Nat) :
    (s.attempts = 0 →
      ((runCloses s codes).2).length ≤ maxReconnectAttempts ∧
      List.Chain' (· < ·) ((runCloses s codes).2)) ∧
    (∀ d ∈ (runCloses s codes).2, ∃ k, s.attempts < k ∧ k ≤ maxReconnectAttempts ∧
      d = reconnectBaseDelayMs * k) ∧
    onClose s cleanCloseCode = (s, none) ∧
    (s.hasToken = false → onClose s code = (s, none)) ∧
    onClose (cleanup s) code = (cleanup s, none) ∧
    (∀ n, (runCloses s (List.replicate n cleanCloseCode)).2 = []) := by
  refine ⟨?_, runCloses_delays_form codes s, onClose_clean s, ?_, ?_,
    fun n => runCloses_clean s n⟩
  · intro h0
    obtain ⟨h1, h2⟩ := runCloses_spec codes s
    rw [h0] at h1 h2
    exact ⟨by simpa using h1, (List.chain'_cons'.mp h2).2⟩
  · intro htok
    unfold onClose
    by_cases hm : s.mounted = false
    · rw [if_pos hm]
    · rw [if_neg hm, if_neg (by simp [htok])]
  · unfold cleanup onClose
    simp

theorem claim_C9_witness :
    ((runCloses wClient [1006, 1006, 1006, 1006]).2).length ≤ maxReconnectAttempts ∧
    List.Chain' (· < ·) ((runCloses wClient [1006, 1006, 1006, 1006]).2) ∧
    onClose wClient cleanCloseCode = (wClient, none) ∧
    (runCloses wClient (List.replicate 5 cleanCloseCode)).2 = [] ∧
    (runCloses wClient [1006, 1006, 1006, 1006]).2 = [3000, 6000, 9000] := by
  have h := claim_C9_reconnection_bounded_backoff wClient [1006, 1006, 1006, 1006] 1006
  exact ⟨(h.1 rfl).1, (h.1 rfl).2, h.2.2.1, h.2.2.2.2.2 5, by decide⟩

end MB
